import Mathlib

/-!
Verification of the schedule/job coordination core of a web-performance
audit monitoring system (two Node services over a relational store).

The embedding follows the source:
  - `src/gui/server.js` — Job Registry (`activeJobs` map, `startJob`,
    `stopJob`, `initSchedules`), `resolveFormFactor`, and the HTTP
    handlers for clients / schedules.
  - `src/lighthouse/server.js` — the audit engine HTTP endpoint
    (`GET /audit`): running-row creation, score extraction, and the
    completed/failed persistence paths.

External collaborators are parameters of the model: the cron validator
(node-cron `cron.validate`) and the URL syntax check (the JS `URL`
constructor) are passed in as `String → Bool` predicates, and the audit
engine outcome as an `Except` value.  The relational store is modelled as
explicit list state; store operations are assumed to succeed (store
outages are out of scope of the claims, which describe the normal path).
-/

namespace LighthouseMonitoring

/-! ## Job Registry (src/gui/server.js)

The process-wide `activeJobs` map from client id to the live cron task.
A task handle is represented by the cron expression it was scheduled
with (the callback closure is determined by the client id and the
expression).  `Map.has / Map.get / Map.set / Map.delete` become
association-list operations keyed by client id. -/

abbrev ClientId := Nat

/-- The `activeJobs` map: client id ↦ cron expression of the live task. -/
abbrev Registry := List (ClientId × String)

/-- `activeJobs.get(id)` — the expression of the live task for `id`, if any. -/
def lookupJob : Registry → ClientId → Option String
  | [], _ => none
  | (j, e) :: rest, id => if j = id then some e else lookupJob rest id

/-- `activeJobs.has(id)` — whether a live task is registered for `id`. -/
def isActive (reg : Registry) (id : ClientId) : Bool :=
  (lookupJob reg id).isSome

/-- Number of live entries registered under `id` (for the
at-most-one-per-key invariant). -/
def countJobs : Registry → ClientId → Nat
  | [], _ => 0
  | (j, _) :: rest, id => (if j = id then 1 else 0) + countJobs rest id

/-- `stopJob(clientId)` from src/gui/server.js: if an entry exists, stop
its timer and delete it from the map; no-op otherwise.  On the map state
this is deletion of every entry under the key. -/
def stopJob (id : ClientId) : Registry → Registry
  | [] => []
  | (j, e) :: rest => if j = id then stopJob id rest else (j, e) :: stopJob id rest

/-- `startJob(clientId, expression)` from src/gui/server.js.  Faithful to
the source order: `stopJob` runs FIRST, then `cron.validate`; an invalid
expression throws AFTER the old timer was already stopped, so the error
result carries the mutated registry.  `validate` is the external
node-cron validator. -/
def startJob (validate : String → Bool) (id : ClientId) (expr : String)
    (reg : Registry) : Registry × Except String Unit :=
  let reg1 := stopJob id reg
  if validate expr then
    ((id, expr) :: reg1, Except.ok ())
  else
    (reg1, Except.error ("Invalid cron expression: \"" ++ expr ++ "\""))

/-! ## resolveFormFactor (src/gui/server.js) -/

/-- `resolveFormFactor(clientPlatform, requestedFormFactor)`: the
platform preference of the client wins when it is `mobile` or `desktop`;
`both` honours the requested form factor.  (In the source the second
argument defaults to `"mobile"`; callers in the model always pass it
explicitly.) -/
def resolveFormFactor (clientPlatform : String) (requestedFormFactor : String) : String :=
  if clientPlatform = "mobile" then "mobile"
  else if clientPlatform = "desktop" then "desktop"
  else requestedFormFactor

/-! ## initSchedules (src/gui/server.js)

Boot-time recovery: fetch all clients with a non-null schedule and
`schedule_enabled = TRUE`, call `startJob` on each inside a per-row
try/catch that logs a warning and continues, then log
"Restored ${result.rows.length} scheduled job(s)". -/

/-- A row of the `clients` table as read by `initSchedules`. -/
structure ClientRow where
  id : ClientId
  schedule : Option String
  schedule_enabled : Bool
  deriving Repr, DecidableEq

/-- The SQL filter `schedule IS NOT NULL AND schedule_enabled = TRUE`,
projected to `(id, schedule)` pairs in table order. -/
def enabledSchedules (clients : List ClientRow) : List (ClientId × String) :=
  clients.filterMap (fun c =>
    match c.schedule with
    | some s => if c.schedule_enabled then some (c.id, s) else none
    | none => none)

/-- The for-loop body of `initSchedules`: run `startJob` on each fetched
row; a throwing `startJob` is caught, the client id is appended to the
list of warned ids, and the loop continues with the (possibly mutated)
registry. -/
def runStartJobs (validate : String → Bool) :
    List (ClientId × String) → Registry → List ClientId → Registry × List ClientId
  | [], reg, warned => (reg, warned)
  | (id, s) :: rest, reg, warned =>
    match startJob validate id s reg with
    | (reg1, Except.ok _) => runStartJobs validate rest reg1 warned
    | (reg1, Except.error _) => runStartJobs validate rest reg1 (warned ++ [id])

/-- `initSchedules()` at boot: recover from the stored rows starting from
the empty registry.  Returns the final registry, the logged count
(`result.rows.length` in the source — the number of fetched candidate
rows), and the ids warned about.  The function is total: recovery always
completes without throwing. -/
def initSchedules (validate : String → Bool) (clients : List ClientRow) :
    Registry × Nat × List ClientId :=
  let rows := enabledSchedules clients
  let out := runStartJobs validate rows [] []
  (out.1, rows.length, out.2)

/-! ## DELETE /api/clients/:id (src/gui/server.js)

Stops any active job for the id, issues the SQL DELETE (cascading to
audits), and responds `{success: true}` with status 200 whether or not a
client row existed. -/

/-- A stored client as relevant to deletion. -/
structure StoredClient where
  id : ClientId
  name : String
  url : String
  platform : String
  deriving Repr, DecidableEq

/-- The DELETE /api/clients/:id handler: registry and table after the
call, plus the HTTP status and the success flag of the JSON body. -/
def deleteClient (id : ClientId) (reg : Registry) (db : List StoredClient) :
    Registry × List StoredClient × Nat × Bool :=
  let reg1 := stopJob id reg
  let db1 := db.filter (fun c => c.id ≠ id)
  (reg1, db1, 200, true)

/-! ## Audit engine endpoint (src/lighthouse/server.js, GET /audit)

The endpoint receives `url`, optional `client_id` and `form_factor`.
The Lighthouse invocation itself is external: its outcome is a
parameter, either the result document (category scores and the full
report) or an error message.  The `running` INSERT sits in its own
try/catch in the source (on failure it logs and continues with
`auditId = null`); `insertOk` models whether it succeeded. -/

/-- Category scores of the Lighthouse result document: each category is
absent or carries a fractional score in `[0, 1]`.  A category present
with a null score behaves the same as an absent one under the JS access
`categories.x?.score || 0`, so both are `none` here. -/
structure Categories where
  performance : Option ℚ
  accessibility : Option ℚ
  best_practices : Option ℚ
  seo : Option ℚ
  pwa : Option ℚ
  deriving DecidableEq

/-- JS `Math.round` on a nonnegative value: `⌊x + 1/2⌋`. -/
def jsRound (q : ℚ) : ℤ := Int.floor (q + 1/2)

/-- `Math.round((categories.x?.score || 0) * 100)` — an absent category
or a null score contributes 0. -/
def extractScore (s : Option ℚ) : ℤ := jsRound (s.getD 0 * 100)

/-- The five integer scores persisted and returned by the endpoint. -/
structure Scores where
  performance : ℤ
  accessibility : ℤ
  best_practices : ℤ
  seo : ℤ
  pwa : ℤ
  deriving Repr, DecidableEq

/-- The `scores` object computed by the handler. -/
def computeScores (cats : Categories) : Scores :=
  ⟨extractScore cats.performance, extractScore cats.accessibility,
   extractScore cats.best_practices, extractScore cats.seo,
   extractScore cats.pwa⟩

/-- The Lighthouse result as consumed by the handler: the categories
object and the full report document (opaque). -/
structure LhResult where
  categories : Categories
  report : String
  deriving DecidableEq

/-- A row of the `audits` table (the columns the claims speak about). -/
structure AuditRow where
  id : Nat
  client_id : Nat
  form_factor : String
  performance : Option ℤ
  accessibility : Option ℤ
  best_practices : Option ℤ
  seo : Option ℤ
  pwa : Option ℤ
  report_json : Option String
  status : String
  error_message : Option String
  deriving Repr, DecidableEq

/-- The row created by
`INSERT INTO audits (client_id, form_factor, status) VALUES (_, _, 'running')`:
scores, report and error message are NULL. -/
def runningRow (aid cid : Nat) (ff : String) : AuditRow :=
  ⟨aid, cid, ff, none, none, none, none, none, none, "running", none⟩

/-- The `completed` UPDATE: sets the five scores, the report and the
status. -/
def completedUpdate (row : AuditRow) (sc : Scores) (report : String) : AuditRow :=
  { row with
    performance := some sc.performance, accessibility := some sc.accessibility,
    best_practices := some sc.best_practices, seo := some sc.seo,
    pwa := some sc.pwa, report_json := some report, status := "completed" }

/-- The `failed` UPDATE: sets status and error message only. -/
def failedUpdate (row : AuditRow) (msg : String) : AuditRow :=
  { row with status := "failed", error_message := some msg }

/-- The row written by the completed INSERT fallback (client id present
but no running row). -/
def completedRow (aid cid : Nat) (ff : String) (sc : Scores) (report : String) : AuditRow :=
  ⟨aid, cid, ff, some sc.performance, some sc.accessibility,
   some sc.best_practices, some sc.seo, some sc.pwa, some report,
   "completed", none⟩

/-- `UPDATE audits SET ... WHERE id = aid`. -/
def updateRow (aid : Nat) (f : AuditRow → AuditRow) : List AuditRow → List AuditRow
  | [] => []
  | r :: rest => (if r.id = aid then f r else r) :: updateRow aid f rest

/-- `SELECT * FROM audits WHERE id = aid` (first match). -/
def findRow : List AuditRow → Nat → Option AuditRow
  | [], _ => none
  | r :: rest, aid => if r.id = aid then some r else findRow rest aid

/-- Number of audit rows carrying a given id. -/
def countRows : List AuditRow → Nat → Nat
  | [], _ => 0
  | r :: rest, aid => (if r.id = aid then 1 else 0) + countRows rest aid

/-- The HTTP response of GET /audit. -/
structure AuditResp where
  status : Nat
  success : Bool
  scores : Option Scores
  audit_id : Option Nat
  error : Option String
  deriving Repr, DecidableEq

/-- Record-creation phase of the handler: when a client id is present,
insert the `running` row (serial id `nextId`) and remember it in
`auditId`; when the insert fails the source logs and continues with
`auditId = null`.  Returns the store, `auditId`, and the next serial. -/
def auditRecordPhase (client_id : Option Nat) (formFactor : String)
    (insertOk : Bool) (db : List AuditRow) (nextId : Nat) :
    List AuditRow × Option Nat × Nat :=
  match client_id with
  | some cid =>
    if insertOk then
      (db ++ [runningRow nextId cid formFactor], some nextId, nextId + 1)
    else (db, none, nextId)
  | none => (db, none, nextId)

/-- Completion phase: on engine success persist `completed` (UPDATE when
a running row exists, INSERT when a client id is present but the running
insert had failed, nothing otherwise) and answer 200 with the scores; on
engine failure mark the running row `failed` (if any) and answer 500
with the error message. -/
def auditFinishPhase (client_id : Option Nat) (formFactor : String)
    (outcome : Except String LhResult) (db : List AuditRow)
    (auditId : Option Nat) (nextId : Nat) : List AuditRow × AuditResp :=
  match outcome with
  | Except.ok res =>
    let sc := computeScores res.categories
    match auditId with
    | some aid =>
      (updateRow aid (fun r => completedUpdate r sc res.report) db,
       ⟨200, true, some sc, some aid, none⟩)
    | none =>
      match client_id with
      | some cid =>
        (db ++ [completedRow nextId cid formFactor sc res.report],
         ⟨200, true, some sc, some nextId, none⟩)
      | none => (db, ⟨200, true, some sc, none, none⟩)
  | Except.error msg =>
    match auditId with
    | some aid =>
      (updateRow aid (fun r => failedUpdate r msg) db,
       ⟨500, false, none, none, some msg⟩)
    | none => (db, ⟨500, false, none, none, some msg⟩)

/-- The GET /audit handler for a present, syntactically valid `url`:
coerce the requested form factor (`desktop` or else `mobile`), run the
record phase, then the audit and its persistence. -/
def auditHandler (client_id : Option Nat) (form_factor : String)
    (insertOk : Bool) (outcome : Except String LhResult)
    (db : List AuditRow) (nextId : Nat) : List AuditRow × AuditResp :=
  let ff := if form_factor = "desktop" then "desktop" else "mobile"
  let phase1 := auditRecordPhase client_id ff insertOk db nextId
  auditFinishPhase client_id ff outcome phase1.1 phase1.2.1 phase1.2.2

/-! ## POST /api/clients (src/gui/server.js) -/

/-- The request body of POST /api/clients. -/
structure ClientReq where
  name : Option String
  url : Option String
  platform : Option String
  deriving Repr, DecidableEq

/-- JS falsiness of a destructured string field: absent (`undefined`) or
the empty string (`!name` / `!url` in the source). -/
def jsFalsy (s : Option String) : Bool :=
  match s with
  | none => true
  | some t => t = ""

/-- The POST /api/clients handler.  `isValidUrl` is the external JS
`URL` constructor succeeding; when it throws, the generic catch sees a
TypeError without `code = "23505"` and answers 500.  The two unique
constraints (`clients_name_unique`, `clients_url_platform_unique`) are
the only 23505 sources and answer 409.  Returns the HTTP status and the
table afterwards. -/
def postClients (isValidUrl : String → Bool) (db : List StoredClient)
    (nextId : Nat) (req : ClientReq) : Nat × List StoredClient :=
  let platform := req.platform.getD "both"
  let name := req.name.getD ""
  let url := req.url.getD ""
  if jsFalsy req.name || jsFalsy req.url then (400, db)
  else if ¬ (platform = "mobile" ∨ platform = "desktop" ∨ platform = "both") then
    (400, db)
  else if isValidUrl url = false then (500, db)
  else if db.any (fun c => c.name == name) then (409, db)
  else if db.any (fun c => c.url == url && c.platform == platform) then (409, db)
  else (201, db ++ [⟨nextId, name, url, platform⟩])

/-! ## Basic registry lemmas -/

theorem lookupJob_cons_self (id : ClientId) (e : String) (reg : Registry) :
    lookupJob ((id, e) :: reg) id = some e := by
  simp [lookupJob]

theorem lookupJob_cons_ne (j id : ClientId) (e : String) (reg : Registry)
    (h : j ≠ id) : lookupJob ((j, e) :: reg) id = lookupJob reg id := by
  simp [lookupJob, h]

theorem lookupJob_stopJob_self (id : ClientId) (reg : Registry) :
    lookupJob (stopJob id reg) id = none := by
  induction reg with
  | nil => rfl
  | cons p rest ih =>
    obtain ⟨j, e⟩ := p
    by_cases h : j = id
    · simpa [stopJob, h] using ih
    · simpa [stopJob, lookupJob, h] using ih

theorem lookupJob_stopJob_ne (j id : ClientId) (reg : Registry) (h : j ≠ id) :
    lookupJob (stopJob j reg) id = lookupJob reg id := by
  induction reg with
  | nil => rfl
  | cons p rest ih =>
    obtain ⟨k, e⟩ := p
    by_cases hk : k = j
    · subst hk
      simpa [stopJob, lookupJob, h] using ih
    · simp only [stopJob]
      rw [if_neg hk]
      by_cases hki : k = id
      · simp [lookupJob, hki]
      · simp [lookupJob, hki, ih]

theorem countJobs_stopJob_self (id : ClientId) (reg : Registry) :
    countJobs (stopJob id reg) id = 0 := by
  induction reg with
  | nil => rfl
  | cons p rest ih =>
    obtain ⟨j, e⟩ := p
    by_cases h : j = id
    · simpa [stopJob, h] using ih
    · simpa [stopJob, countJobs, h] using ih

theorem countJobs_stopJob_ne (j id : ClientId) (reg : Registry) (h : j ≠ id) :
    countJobs (stopJob j reg) id = countJobs reg id := by
  induction reg with
  | nil => rfl
  | cons p rest ih =>
    obtain ⟨k, e⟩ := p
    by_cases hk : k = j
    · subst hk
      simpa [stopJob, countJobs, h] using ih
    · simp only [stopJob]
      rw [if_neg hk]
      simp [countJobs, ih]

theorem countJobs_startJob_self (validate : String → Bool) (id : ClientId)
    (e : String) (reg : Registry) (h : validate e = true) :
    countJobs (startJob validate id e reg).1 id = 1 := by
  simp [startJob, h, countJobs, countJobs_stopJob_self]

theorem lookupJob_startJob_self (validate : String → Bool) (id : ClientId)
    (e : String) (reg : Registry) (h : validate e = true) :
    lookupJob (startJob validate id e reg).1 id = some e := by
  simp [startJob, h, lookupJob]

theorem lookupJob_startJob_ne (validate : String → Bool) (j id : ClientId)
    (e : String) (reg : Registry) (h : j ≠ id) :
    lookupJob (startJob validate j e reg).1 id = lookupJob reg id := by
  by_cases hv : validate e
  · simp only [startJob, hv, if_true]
    rw [lookupJob_cons_ne j id e (stopJob j reg) h]
    exact lookupJob_stopJob_ne j id reg h
  · simp only [startJob, hv, Bool.false_eq_true, if_false]
    exact lookupJob_stopJob_ne j id reg h

theorem countJobs_startJob_le_one (validate : String → Bool) (j id : ClientId)
    (e : String) (reg : Registry) (hle : countJobs reg id ≤ 1) :
    countJobs (startJob validate j e reg).1 id ≤ 1 := by
  by_cases hv : validate e
  · simp only [startJob, hv, if_true, countJobs]
    by_cases hj : j = id
    · subst hj
      simp [countJobs_stopJob_self j reg]
    · rw [countJobs_stopJob_ne j id reg hj]
      simp [hj]
      omega
  · simp only [startJob, hv, Bool.false_eq_true, if_false]
    by_cases hj : j = id
    · subst hj
      simp [countJobs_stopJob_self j reg]
    · rw [countJobs_stopJob_ne j id reg hj]
      exact hle

/-! ## Recovery lemmas (initSchedules) -/

theorem runStartJobs_lookup_not_mem (validate : String → Bool)
    (rows : List (ClientId × String)) (id : ClientId) :
    ∀ (reg : Registry) (warned : List ClientId),
      id ∉ rows.map Prod.fst →
      lookupJob (runStartJobs validate rows reg warned).1 id = lookupJob reg id := by
  induction rows with
  | nil => intro reg warned _; rfl
  | cons p rest ih =>
    intro reg warned h
    obtain ⟨j, s⟩ := p
    have hj : j ≠ id := by
      intro hc
      exact h (by simp [hc])
    have hrest : id ∉ rest.map Prod.fst := fun hc => h (by simp [hc])
    by_cases hv : validate s = true
    · simp only [runStartJobs, startJob, hv, if_true]
      rw [ih _ _ hrest, lookupJob_cons_ne j id s _ hj]
      exact lookupJob_stopJob_ne j id reg hj
    · have hv' : validate s = false := by simpa using hv
      simp only [runStartJobs, startJob, hv', Bool.false_eq_true, if_false]
      rw [ih _ _ hrest]
      exact lookupJob_stopJob_ne j id reg hj

theorem runStartJobs_warned_mono (validate : String → Bool)
    (rows : List (ClientId × String)) (id : ClientId) :
    ∀ (reg : Registry) (warned : List ClientId),
      id ∈ warned → id ∈ (runStartJobs validate rows reg warned).2 := by
  induction rows with
  | nil => intro reg warned h; exact h
  | cons p rest ih =>
    intro reg warned h
    obtain ⟨j, s⟩ := p
    by_cases hv : validate s = true
    · simp only [runStartJobs, startJob, hv, if_true]
      exact ih _ _ h
    · have hv' : validate s = false := by simpa using hv
      simp only [runStartJobs, startJob, hv', Bool.false_eq_true, if_false]
      exact ih _ _ (by simp [h])

theorem runStartJobs_warned_not_mem (validate : String → Bool)
    (rows : List (ClientId × String)) (id : ClientId) :
    ∀ (reg : Registry) (warned : List ClientId),
      id ∉ warned → id ∉ rows.map Prod.fst →
      id ∉ (runStartJobs validate rows reg warned).2 := by
  induction rows with
  | nil => intro reg warned hw _; exact hw
  | cons p rest ih =>
    intro reg warned hw h
    obtain ⟨j, s⟩ := p
    have hj : j ≠ id := by
      intro hc
      exact h (by simp [hc])
    have hrest : id ∉ rest.map Prod.fst := fun hc => h (by simp [hc])
    by_cases hv : validate s = true
    · simp only [runStartJobs, startJob, hv, if_true]
      exact ih _ _ hw hrest
    · have hv' : validate s = false := by simpa using hv
      simp only [runStartJobs, startJob, hv', Bool.false_eq_true, if_false]
      refine ih _ _ ?_ hrest
      intro hc
      rcases List.mem_append.mp hc with hc1 | hc2
      · exact hw hc1
      · have hcj : id = j := by simpa using hc2
        exact hj hcj.symm

theorem runStartJobs_lookup_valid (validate : String → Bool)
    (rows : List (ClientId × String)) (id : ClientId) (s : String) :
    ∀ (reg : Registry) (warned : List ClientId),
      (rows.map Prod.fst).Nodup → (id, s) ∈ rows → validate s = true →
      lookupJob (runStartJobs validate rows reg warned).1 id = some s := by
  induction rows with
  | nil =>
    intro _ _ _ hmem _
    exact absurd hmem (List.not_mem_nil _)
  | cons p rest ih =>
    intro reg warned hnd hmem hv
    obtain ⟨j, t⟩ := p
    simp only [List.map_cons] at hnd
    rcases List.mem_cons.mp hmem with heq | hmem'
    · injection heq with h1 h2
      subst h1
      subst h2
      have hrest : id ∉ rest.map Prod.fst := (List.nodup_cons.mp hnd).1
      simp only [runStartJobs, startJob, hv, if_true]
      rw [runStartJobs_lookup_not_mem validate rest id _ _ hrest]
      exact lookupJob_cons_self id s _
    · have hid : id ∈ rest.map Prod.fst := List.mem_map.mpr ⟨(id, s), hmem', rfl⟩
      have hj : j ≠ id := by
        intro hc
        exact (List.nodup_cons.mp hnd).1 (hc ▸ hid)
      have hnd' := (List.nodup_cons.mp hnd).2
      by_cases hvt : validate t = true
      · simp only [runStartJobs, startJob, hvt, if_true]
        exact ih _ _ hnd' hmem' hv
      · have hvt' : validate t = false := by simpa using hvt
        simp only [runStartJobs, startJob, hvt', Bool.false_eq_true, if_false]
        exact ih _ _ hnd' hmem' hv

theorem runStartJobs_invalid_skipped (validate : String → Bool)
    (rows : List (ClientId × String)) (id : ClientId) (s : String) :
    ∀ (reg : Registry) (warned : List ClientId),
      (rows.map Prod.fst).Nodup → (id, s) ∈ rows → validate s = false →
      id ∉ warned →
      lookupJob (runStartJobs validate rows reg warned).1 id = none ∧
      id ∈ (runStartJobs validate rows reg warned).2 := by
  induction rows with
  | nil =>
    intro _ _ _ hmem _ _
    exact absurd hmem (List.not_mem_nil _)
  | cons p rest ih =>
    intro reg warned hnd hmem hv hw
    obtain ⟨j, t⟩ := p
    simp only [List.map_cons] at hnd
    rcases List.mem_cons.mp hmem with heq | hmem'
    · injection heq with h1 h2
      subst h1
      subst h2
      have hrest : id ∉ rest.map Prod.fst := (List.nodup_cons.mp hnd).1
      simp only [runStartJobs, startJob, hv, Bool.false_eq_true, if_false]
      constructor
      · rw [runStartJobs_lookup_not_mem validate rest id _ _ hrest]
        exact lookupJob_stopJob_self id reg
      · exact runStartJobs_warned_mono validate rest id _ _ (by simp)
    · have hid : id ∈ rest.map Prod.fst := List.mem_map.mpr ⟨(id, s), hmem', rfl⟩
      have hj : j ≠ id := by
        intro hc
        exact (List.nodup_cons.mp hnd).1 (hc ▸ hid)
      have hnd' := (List.nodup_cons.mp hnd).2
      by_cases hvt : validate t = true
      · simp only [runStartJobs, startJob, hvt, if_true]
        exact ih _ _ hnd' hmem' hv hw
      · have hvt' : validate t = false := by simpa using hvt
        simp only [runStartJobs, startJob, hvt', Bool.false_eq_true, if_false]
        refine ih _ _ hnd' hmem' hv ?_
        intro hc
        rcases List.mem_append.mp hc with hc1 | hc2
        · exact hw hc1
        · have hcj : id = j := by simpa using hc2
          exact hj hcj.symm

theorem mem_enabledSchedules (clients : List ClientRow) (c : ClientRow)
    (hc : c ∈ clients) (s : String) (hs : c.schedule = some s)
    (he : c.schedule_enabled = true) : (c.id, s) ∈ enabledSchedules clients := by
  refine List.mem_filterMap.mpr ⟨c, hc, ?_⟩
  simp [hs, he]

theorem enabledSchedules_cons_none (c : ClientRow) (rest : List ClientRow)
    (h : c.schedule = none) :
    enabledSchedules (c :: rest) = enabledSchedules rest := by
  simp [enabledSchedules, List.filterMap_cons, h]

theorem enabledSchedules_cons_disabled (c : ClientRow) (rest : List ClientRow)
    (s : String) (h : c.schedule = some s) (he : c.schedule_enabled = false) :
    enabledSchedules (c :: rest) = enabledSchedules rest := by
  simp [enabledSchedules, List.filterMap_cons, h, he]

theorem enabledSchedules_cons_enabled (c : ClientRow) (rest : List ClientRow)
    (s : String) (h : c.schedule = some s) (he : c.schedule_enabled = true) :
    enabledSchedules (c :: rest) = (c.id, s) :: enabledSchedules rest := by
  simp [enabledSchedules, List.filterMap_cons, h, he]

theorem enabledSchedules_key_mem (clients : List ClientRow) (id : ClientId)
    (h : id ∈ (enabledSchedules clients).map Prod.fst) :
    ∃ c ∈ clients, c.id = id ∧ (∃ s, c.schedule = some s) ∧
      c.schedule_enabled = true := by
  rcases List.mem_map.mp h with ⟨⟨k, s⟩, hmem, hk⟩
  rcases List.mem_filterMap.mp hmem with ⟨c, hc, hfc⟩
  cases hsch : c.schedule with
  | none =>
    rw [hsch] at hfc
    simp at hfc
  | some t =>
    rw [hsch] at hfc
    by_cases he : c.schedule_enabled
    · simp only [he, if_true] at hfc
      simp at hfc
      obtain ⟨hk2, hs2⟩ := hfc
      refine ⟨c, hc, ?_, ⟨t, hsch⟩, he⟩
      rw [hk2]
      exact hk
    · simp [he] at hfc

theorem enabledSchedules_keys_nodup (clients : List ClientRow)
    (hnd : (clients.map ClientRow.id).Nodup) :
    ((enabledSchedules clients).map Prod.fst).Nodup := by
  induction clients with
  | nil => simp [enabledSchedules]
  | cons c rest ih =>
    simp only [List.map_cons, List.nodup_cons] at hnd
    obtain ⟨hni, hnd'⟩ := hnd
    cases hsch : c.schedule with
    | none =>
      rw [enabledSchedules_cons_none c rest hsch]
      exact ih hnd'
    | some s =>
      by_cases he : c.schedule_enabled
      · rw [enabledSchedules_cons_enabled c rest s hsch he, List.map_cons]
        refine List.nodup_cons.mpr ⟨?_, ih hnd'⟩
        intro hmem
        rcases enabledSchedules_key_mem rest c.id hmem with ⟨c2, hc2, hid2, _, _⟩
        exact hni (hid2 ▸ List.mem_map_of_mem ClientRow.id hc2)
      · rw [enabledSchedules_cons_disabled c rest s hsch (by simpa using he)]
        exact ih hnd'

theorem enabledSchedules_key_not_mem_of_inert (clients : List ClientRow)
    (hnd : (clients.map ClientRow.id).Nodup) (c : ClientRow) (hc : c ∈ clients)
    (h : c.schedule = none ∨ c.schedule_enabled = false) :
    c.id ∉ (enabledSchedules clients).map Prod.fst := by
  intro hmem
  rcases enabledSchedules_key_mem clients c.id hmem with
    ⟨c2, hc2, hid2, ⟨s, hs2⟩, he2⟩
  have hcc : c2 = c := List.inj_on_of_nodup_map hnd hc2 hc hid2
  subst hcc
  rcases h with hn | hd
  · rw [hn] at hs2
    exact absurd hs2 (by simp)
  · rw [hd] at he2
    exact absurd he2 (by simp)

/-! ## Audit store lemmas -/

theorem findRow_append_fresh (db : List AuditRow) (row : AuditRow)
    (hfresh : ∀ r ∈ db, r.id ≠ row.id) :
    findRow (db ++ [row]) row.id = some row := by
  induction db with
  | nil => simp [findRow]
  | cons r rest ih =>
    have hr : r.id ≠ row.id := hfresh r (List.mem_cons_self r rest)
    simp only [List.cons_append, findRow]
    rw [if_neg hr]
    exact ih (fun r2 h2 => hfresh r2 (List.mem_cons_of_mem r h2))

theorem findRow_updateRow (aid : Nat) (f : AuditRow → AuditRow)
    (hf : ∀ r, (f r).id = r.id) (db : List AuditRow) :
    findRow (updateRow aid f db) aid = (findRow db aid).map f := by
  induction db with
  | nil => rfl
  | cons r rest ih =>
    by_cases h : r.id = aid
    · simp [updateRow, findRow, h, hf r]
    · simp [updateRow, findRow, h, ih]

theorem countRows_zero_of_fresh (db : List AuditRow) (aid : Nat)
    (hfresh : ∀ r ∈ db, r.id ≠ aid) : countRows db aid = 0 := by
  induction db with
  | nil => rfl
  | cons r rest ih =>
    have hr : r.id ≠ aid := hfresh r (List.mem_cons_self r rest)
    simp only [countRows]
    rw [if_neg hr]
    simp [ih (fun r2 h2 => hfresh r2 (List.mem_cons_of_mem r h2))]

theorem countRows_append (db1 db2 : List AuditRow) (aid : Nat) :
    countRows (db1 ++ db2) aid = countRows db1 aid + countRows db2 aid := by
  induction db1 with
  | nil => simp [countRows]
  | cons r rest ih =>
    show countRows (r :: (rest ++ db2)) aid =
      countRows (r :: rest) aid + countRows db2 aid
    simp only [countRows]
    rw [ih]
    omega

theorem countRows_updateRow (aid : Nat) (f : AuditRow → AuditRow)
    (hf : ∀ r, (f r).id = r.id) (db : List AuditRow) :
    countRows (updateRow aid f db) aid = countRows db aid := by
  induction db with
  | nil => rfl
  | cons r rest ih =>
    by_cases h : r.id = aid
    · simp [updateRow, countRows, h, hf r, ih]
    · simp [updateRow, countRows, h, ih]

/-! ## Claim C3, C8, C9 theorems -/

/-- C3: an audit invocation carrying a client id creates an AuditRun row
in status `running` (scores, report and error message all null) at
invocation time, and by the end of the same invocation that row has made
exactly one transition: to `completed` with all five scores and the
report non-null, or to `failed` with a non-null error message and all
five scores still null.  The row is the only one under its id, so no
other final status and no second transition exists. -/
theorem claim_C3_audit_lifecycle (cid : Nat) (ff : String)
    (outcome : Except String LhResult) (db : List AuditRow) (nextId : Nat)
    (hfresh : ∀ r ∈ db, r.id ≠ nextId) :
    findRow (auditRecordPhase (some cid) ff true db nextId).1 nextId =
      some (runningRow nextId cid ff) ∧
    (runningRow nextId cid ff).status = "running" ∧
    (runningRow nextId cid ff).performance = none ∧
    (∃ row,
      findRow (auditFinishPhase (some cid) ff outcome
          (auditRecordPhase (some cid) ff true db nextId).1
          (auditRecordPhase (some cid) ff true db nextId).2.1
          (auditRecordPhase (some cid) ff true db nextId).2.2).1 nextId = some row ∧
      row.client_id = cid ∧
      ((row.status = "completed" ∧ row.performance.isSome ∧
        row.accessibility.isSome ∧ row.best_practices.isSome ∧
        row.seo.isSome ∧ row.pwa.isSome ∧ row.report_json.isSome) ∨
       (row.status = "failed" ∧ row.error_message.isSome ∧
        row.performance = none ∧ row.accessibility = none ∧
        row.best_practices = none ∧ row.seo = none ∧ row.pwa = none))) ∧
    countRows (auditFinishPhase (some cid) ff outcome
        (auditRecordPhase (some cid) ff true db nextId).1
        (auditRecordPhase (some cid) ff true db nextId).2.1
        (auditRecordPhase (some cid) ff true db nextId).2.2).1 nextId = 1 := by
  have hfresh2 : ∀ r ∈ db, r.id ≠ (runningRow nextId cid ff).id := hfresh
  have hfind : findRow (db ++ [runningRow nextId cid ff]) nextId =
      some (runningRow nextId cid ff) :=
    findRow_append_fresh db (runningRow nextId cid ff) hfresh2
  have hcount : countRows (db ++ [runningRow nextId cid ff]) nextId = 1 := by
    rw [countRows_append, countRows_zero_of_fresh db nextId hfresh]
    simp [countRows, runningRow]
  refine ⟨hfind, rfl, rfl, ?_, ?_⟩
  · cases outcome with
    | ok res =>
      refine ⟨completedUpdate (runningRow nextId cid ff)
          (computeScores res.categories) res.report, ?_, rfl,
          Or.inl ⟨rfl, rfl, rfl, rfl, rfl, rfl, rfl⟩⟩
      show findRow (updateRow nextId
          (fun r => completedUpdate r (computeScores res.categories) res.report)
          (db ++ [runningRow nextId cid ff])) nextId = _
      rw [findRow_updateRow nextId
          (fun r => completedUpdate r (computeScores res.categories) res.report)
          (fun r => rfl) (db ++ [runningRow nextId cid ff]), hfind]
      rfl
    | error msg =>
      refine ⟨failedUpdate (runningRow nextId cid ff) msg, ?_, rfl,
          Or.inr ⟨rfl, rfl, rfl, rfl, rfl, rfl, rfl⟩⟩
      show findRow (updateRow nextId (fun r => failedUpdate r msg)
          (db ++ [runningRow nextId cid ff])) nextId = _
      rw [findRow_updateRow nextId (fun r => failedUpdate r msg)
          (fun r => rfl) (db ++ [runningRow nextId cid ff]), hfind]
      rfl
  · cases outcome with
    | ok res =>
      show countRows (updateRow nextId
          (fun r => completedUpdate r (computeScores res.categories) res.report)
          (db ++ [runningRow nextId cid ff])) nextId = 1
      rw [countRows_updateRow nextId
          (fun r => completedUpdate r (computeScores res.categories) res.report)
          (fun r => rfl)]
      exact hcount
    | error msg =>
      show countRows (updateRow nextId (fun r => failedUpdate r msg)
          (db ++ [runningRow nextId cid ff])) nextId = 1
      rw [countRows_updateRow nextId (fun r => failedUpdate r msg)
          (fun r => rfl)]
      exact hcount

/-- A concrete audit outcome for the closed witness theorem. -/
def demoOutcome : Except String LhResult :=
  Except.ok ⟨⟨some (1/2), some 1, none, some 0, some (9/10)⟩, "rep"⟩

/-- Witness for C3 at a concrete input. -/
theorem claim_C3_audit_lifecycle_witness :
    (∀ r ∈ ([] : List AuditRow), r.id ≠ 1) ∧
    (findRow (auditRecordPhase (some 7) "mobile" true [] 1).1 1 =
      some (runningRow 1 7 "mobile") ∧
    (runningRow 1 7 "mobile").status = "running" ∧
    (runningRow 1 7 "mobile").performance = none ∧
    (∃ row,
      findRow (auditFinishPhase (some 7) "mobile" demoOutcome
          (auditRecordPhase (some 7) "mobile" true [] 1).1
          (auditRecordPhase (some 7) "mobile" true [] 1).2.1
          (auditRecordPhase (some 7) "mobile" true [] 1).2.2).1 1 = some row ∧
      row.client_id = 7 ∧
      ((row.status = "completed" ∧ row.performance.isSome ∧
        row.accessibility.isSome ∧ row.best_practices.isSome ∧
        row.seo.isSome ∧ row.pwa.isSome ∧ row.report_json.isSome) ∨
       (row.status = "failed" ∧ row.error_message.isSome ∧
        row.performance = none ∧ row.accessibility = none ∧
        row.best_practices = none ∧ row.seo = none ∧ row.pwa = none))) ∧
    countRows (auditFinishPhase (some 7) "mobile" demoOutcome
        (auditRecordPhase (some 7) "mobile" true [] 1).1
        (auditRecordPhase (some 7) "mobile" true [] 1).2.1
        (auditRecordPhase (some 7) "mobile" true [] 1).2.2).1 1 = 1) :=
  ⟨by simp, claim_C3_audit_lifecycle 7 "mobile" demoOutcome [] 1 (by simp)⟩

/-- C8 counterexample: the engine invoked WITHOUT a client id on a
successful audit writes NO AuditRun record at all — also not on
completion — while the response still reports success; the claim that a
record is written on completion fails here. -/
theorem claim_C8_counterexample :
    (auditHandler none "mobile" true
      (Except.ok ⟨⟨some 1, some 1, some 1, some 1, some 1⟩, "rep"⟩) [] 1).1 = [] ∧
    (auditHandler none "mobile" true
      (Except.ok ⟨⟨some 1, some 1, some 1, some 1, some 1⟩, "rep"⟩) [] 1).2.success
        = true ∧
    (auditHandler none "mobile" true
      (Except.ok ⟨⟨some 1, some 1, some 1, some 1, some 1⟩, "rep"⟩) [] 1).2.audit_id
        = none :=
  ⟨rfl, rfl, rfl⟩

/-- C8 amended: when the audit engine is invoked without a client id and
the audit succeeds, no AuditRun record is written at all — neither
beforehand in `running` status nor on completion (the completed-INSERT
fallback also requires a client id) — and the response still reports
success with the scores and a null audit id. -/
theorem claim_C8_no_row_without_client_id (ffReq : String) (insertOk : Bool)
    (res : LhResult) (db : List AuditRow) (nextId : Nat) :
    (auditRecordPhase none (if ffReq = "desktop" then "desktop" else "mobile")
      insertOk db nextId).1 = db ∧
    (auditHandler none ffReq insertOk (Except.ok res) db nextId).1 = db ∧
    (auditHandler none ffReq insertOk (Except.ok res) db nextId).2 =
      ⟨200, true, some (computeScores res.categories), none, none⟩ :=
  ⟨rfl, rfl, rfl⟩

theorem extractScore_none : extractScore none = 0 := by
  norm_num [extractScore, jsRound, Int.floor_eq_iff]

theorem extractScore_bounds (s : Option ℚ)
    (h : ∀ q, s = some q → 0 ≤ q ∧ q ≤ 1) :
    0 ≤ extractScore s ∧ extractScore s ≤ 100 := by
  cases s with
  | none =>
    rw [extractScore_none]
    exact ⟨le_refl 0, by norm_num⟩
  | some q =>
    obtain ⟨h0, h1⟩ := h q rfl
    unfold extractScore jsRound
    simp only [Option.getD_some]
    constructor
    · apply Int.le_floor.mpr
      push_cast
      nlinarith
    · have hlt : (q * 100 + 1/2 : ℚ) < ((101 : ℤ) : ℚ) := by
        push_cast
        nlinarith
      have h2 : Int.floor (q * 100 + 1/2 : ℚ) < 101 := Int.floor_lt.mpr hlt
      omega

/-- C9: score extraction records an absent category (or one with a null
score) as 0, and for fractional category scores in `[0, 1]` each of the
five computed scores is an integer in `[0, 100]`. -/
theorem claim_C9_scores_integer_range (cats : Categories)
    (hp : ∀ q, cats.performance = some q → 0 ≤ q ∧ q ≤ 1)
    (ha : ∀ q, cats.accessibility = some q → 0 ≤ q ∧ q ≤ 1)
    (hb : ∀ q, cats.best_practices = some q → 0 ≤ q ∧ q ≤ 1)
    (hs : ∀ q, cats.seo = some q → 0 ≤ q ∧ q ≤ 1)
    (hw : ∀ q, cats.pwa = some q → 0 ≤ q ∧ q ≤ 1) :
    (0 ≤ (computeScores cats).performance ∧ (computeScores cats).performance ≤ 100) ∧
    (0 ≤ (computeScores cats).accessibility ∧ (computeScores cats).accessibility ≤ 100) ∧
    (0 ≤ (computeScores cats).best_practices ∧ (computeScores cats).best_practices ≤ 100) ∧
    (0 ≤ (computeScores cats).seo ∧ (computeScores cats).seo ≤ 100) ∧
    (0 ≤ (computeScores cats).pwa ∧ (computeScores cats).pwa ≤ 100) ∧
    (cats.performance = none → (computeScores cats).performance = 0) ∧
    (cats.accessibility = none → (computeScores cats).accessibility = 0) ∧
    (cats.best_practices = none → (computeScores cats).best_practices = 0) ∧
    (cats.seo = none → (computeScores cats).seo = 0) ∧
    (cats.pwa = none → (computeScores cats).pwa = 0) := by
  refine ⟨extractScore_bounds _ hp, extractScore_bounds _ ha,
    extractScore_bounds _ hb, extractScore_bounds _ hs,
    extractScore_bounds _ hw, ?_, ?_, ?_, ?_, ?_⟩
  · intro hn
    show extractScore cats.performance = 0
    rw [hn]
    exact extractScore_none
  · intro hn
    show extractScore cats.accessibility = 0
    rw [hn]
    exact extractScore_none
  · intro hn
    show extractScore cats.best_practices = 0
    rw [hn]
    exact extractScore_none
  · intro hn
    show extractScore cats.seo = 0
    rw [hn]
    exact extractScore_none
  · intro hn
    show extractScore cats.pwa = 0
    rw [hn]
    exact extractScore_none

/-- Witness for C9 at a concrete input. -/
theorem claim_C9_scores_integer_range_witness :
    (∀ q, some (17/20 : ℚ) = some q → 0 ≤ q ∧ q ≤ 1) ∧
    (∀ q, (none : Option ℚ) = some q → 0 ≤ q ∧ q ≤ 1) ∧
    (∀ q, some (1 : ℚ) = some q → 0 ≤ q ∧ q ≤ 1) ∧
    (∀ q, some (0 : ℚ) = some q → 0 ≤ q ∧ q ≤ 1) ∧
    (∀ q, some (1/2 : ℚ) = some q → 0 ≤ q ∧ q ≤ 1) ∧
    ((0 ≤ (computeScores ⟨some (17/20), none, some 1, some 0, some (1/2)⟩).performance ∧
      (computeScores ⟨some (17/20), none, some 1, some 0, some (1/2)⟩).performance ≤ 100) ∧
     (0 ≤ (computeScores ⟨some (17/20), none, some 1, some 0, some (1/2)⟩).accessibility ∧
      (computeScores ⟨some (17/20), none, some 1, some 0, some (1/2)⟩).accessibility ≤ 100) ∧
     (0 ≤ (computeScores ⟨some (17/20), none, some 1, some 0, some (1/2)⟩).best_practices ∧
      (computeScores ⟨some (17/20), none, some 1, some 0, some (1/2)⟩).best_practices ≤ 100) ∧
     (0 ≤ (computeScores ⟨some (17/20), none, some 1, some 0, some (1/2)⟩).seo ∧
      (computeScores ⟨some (17/20), none, some 1, some 0, some (1/2)⟩).seo ≤ 100) ∧
     (0 ≤ (computeScores ⟨some (17/20), none, some 1, some 0, some (1/2)⟩).pwa ∧
      (computeScores ⟨some (17/20), none, some 1, some 0, some (1/2)⟩).pwa ≤ 100) ∧
     (some (17/20 : ℚ) = none → (computeScores ⟨some (17/20), none, some 1, some 0, some (1/2)⟩).performance = 0) ∧
     ((none : Option ℚ) = none → (computeScores ⟨some (17/20), none, some 1, some 0, some (1/2)⟩).accessibility = 0) ∧
     (some (1 : ℚ) = none → (computeScores ⟨some (17/20), none, some 1, some 0, some (1/2)⟩).best_practices = 0) ∧
     (some (0 : ℚ) = none → (computeScores ⟨some (17/20), none, some 1, some 0, some (1/2)⟩).seo = 0) ∧
     (some (1/2 : ℚ) = none → (computeScores ⟨some (17/20), none, some 1, some 0, some (1/2)⟩).pwa = 0)) :=
  ⟨(by intro q hq; cases hq; norm_num),
   (by intro q hq; cases hq),
   (by intro q hq; cases hq; norm_num),
   (by intro q hq; cases hq; norm_num),
   (by intro q hq; cases hq; norm_num),
   claim_C9_scores_integer_range ⟨some (17/20), none, some 1, some 0, some (1/2)⟩
     (by intro q hq; cases hq; norm_num)
     (by intro q hq; cases hq)
     (by intro q hq; cases hq; norm_num)
     (by intro q hq; cases hq; norm_num)
     (by intro q hq; cases hq; norm_num)⟩

/-! ## Claim C1, C2, C4, C10 theorems -/

/-- A concrete stand-in for the external node-cron validator, used by the
closed witness/counterexample theorems: it accepts exactly two ordinary
five-field expressions. -/
def cronValid1 : String → Bool := fun s =>
  s = "*/5 * * * *" || s = "0 0 * * *"

/-- C1: the Job Registry holds at most one live timer entry per client
identifier; after `start(id, e1)` then `start(id, e2)` with both
expressions valid, exactly one timer is registered for `id` and it runs
under `e2` (the first is stopped before the second is installed); and
`startJob` preserves the at-most-one-entry-per-key invariant for every
key. -/
theorem claim_C1_single_timer_per_client (validate : String → Bool)
    (id : ClientId) (e1 e2 : String) (reg : Registry)
    (h1 : validate e1 = true) (h2 : validate e2 = true) :
    countJobs (startJob validate id e2 (startJob validate id e1 reg).1).1 id = 1 ∧
    lookupJob (startJob validate id e2 (startJob validate id e1 reg).1).1 id = some e2 ∧
    (∀ (j k : ClientId) (e : String) (r : Registry),
      countJobs r k ≤ 1 → countJobs (startJob validate j e r).1 k ≤ 1) :=
  ⟨countJobs_startJob_self validate id e2 _ h2,
   lookupJob_startJob_self validate id e2 _ h2,
   fun j k e r hr => countJobs_startJob_le_one validate j k e r hr⟩

/-- Witness for C1 at a concrete input. -/
theorem claim_C1_single_timer_per_client_witness :
    cronValid1 "*/5 * * * *" = true ∧ cronValid1 "0 0 * * *" = true ∧
    (countJobs (startJob cronValid1 1 "0 0 * * *"
        (startJob cronValid1 1 "*/5 * * * *" []).1).1 1 = 1 ∧
     lookupJob (startJob cronValid1 1 "0 0 * * *"
        (startJob cronValid1 1 "*/5 * * * *" []).1).1 1 = some "0 0 * * *" ∧
     (∀ (j k : ClientId) (e : String) (r : Registry),
       countJobs r k ≤ 1 → countJobs (startJob cronValid1 j e r).1 k ≤ 1)) :=
  ⟨by decide, by decide,
   claim_C1_single_timer_per_client cronValid1 1 "*/5 * * * *" "0 0 * * *" []
     (by decide) (by decide)⟩

/-- C2 counterexample: in the source, `startJob` calls `stopJob` BEFORE
`cron.validate`, so calling start with a malformed expression for a
client that has an active timer does change state: the existing timer is
stopped and removed before the validation error is thrown.  Here client
1 starts with a live timer under a valid expression; after the failing
call the registry is empty. -/
theorem claim_C2_counterexample :
    (startJob cronValid1 1 "not-a-cron" [(1, "*/5 * * * *")]).2 =
      Except.error "Invalid cron expression: \"not-a-cron\"" ∧
    (startJob cronValid1 1 "not-a-cron" [(1, "*/5 * * * *")]).1 = [] ∧
    isActive (startJob cronValid1 1 "not-a-cron" [(1, "*/5 * * * *")]).1 1 = false :=
  ⟨rfl, by decide, by decide⟩

/-- C2 amended: `startJob(clientId, expr)` with a malformed expression
fails with the invalid-cron-expression error, but only AFTER stopping
and removing any existing timer for that client: afterwards no timer is
active for `clientId` (the registry did change), while entries of every
other client are untouched. -/
theorem claim_C2_invalid_expr_stops_existing (validate : String → Bool)
    (id : ClientId) (expr : String) (reg : Registry)
    (h : validate expr = false) :
    (startJob validate id expr reg).2 =
      Except.error ("Invalid cron expression: \"" ++ expr ++ "\"") ∧
    isActive (startJob validate id expr reg).1 id = false ∧
    (∀ j, j ≠ id → lookupJob (startJob validate id expr reg).1 j = lookupJob reg j) := by
  refine ⟨by simp [startJob, h], ?_, ?_⟩
  · simp [startJob, h, isActive, lookupJob_stopJob_self]
  · intro j hj
    simp only [startJob, h, Bool.false_eq_true, if_false]
    exact lookupJob_stopJob_ne id j reg (Ne.symm hj)

/-- Witness for the amended C2 at a concrete input. -/
theorem claim_C2_invalid_expr_stops_existing_witness :
    cronValid1 "not-a-cron" = false ∧
    ((startJob cronValid1 2 "not-a-cron" [(1, "*/5 * * * *")]).2 =
       Except.error ("Invalid cron expression: \"" ++ "not-a-cron" ++ "\"") ∧
     isActive (startJob cronValid1 2 "not-a-cron" [(1, "*/5 * * * *")]).1 2 = false ∧
     (∀ j, j ≠ 2 → lookupJob (startJob cronValid1 2 "not-a-cron" [(1, "*/5 * * * *")]).1 j =
        lookupJob [(1, "*/5 * * * *")] j)) :=
  ⟨by decide,
   claim_C2_invalid_expr_stops_existing cronValid1 2 "not-a-cron"
     [(1, "*/5 * * * *")] (by decide)⟩

/-- C4: `resolveFormFactor` is pure and total on valid platform values:
`mobile`/`desktop` platform preferences win unconditionally, `both`
honours the requested form factor, and the result is one of
mobile/desktop whenever the requested form factor is. -/
theorem claim_C4_resolveFormFactor (p r : String)
    (hp : p = "mobile" ∨ p = "desktop" ∨ p = "both")
    (hr : r = "mobile" ∨ r = "desktop") :
    resolveFormFactor "mobile" r = "mobile" ∧
    resolveFormFactor "desktop" r = "desktop" ∧
    resolveFormFactor "both" r = r ∧
    (resolveFormFactor p r = "mobile" ∨ resolveFormFactor p r = "desktop") := by
  rcases hp with rfl | rfl | rfl <;> rcases hr with rfl | rfl <;> decide

/-- Witness for C4 at a concrete input. -/
theorem claim_C4_resolveFormFactor_witness :
    ("both" = "mobile" ∨ "both" = "desktop" ∨ "both" = "both") ∧
    ("desktop" = "mobile" ∨ "desktop" = "desktop") ∧
    (resolveFormFactor "mobile" "desktop" = "mobile" ∧
     resolveFormFactor "desktop" "desktop" = "desktop" ∧
     resolveFormFactor "both" "desktop" = "desktop" ∧
     (resolveFormFactor "both" "desktop" = "mobile" ∨
      resolveFormFactor "both" "desktop" = "desktop")) :=
  ⟨by decide, by decide,
   claim_C4_resolveFormFactor "both" "desktop" (by decide) (by decide)⟩

/-- C10: the DELETE /api/clients/:id handler answers 200 `{success: true}`
for every id — also when no stored client carries that id — and first
stops any active timer under the key, so `isActive` is false afterwards;
the table delete removes exactly the rows of that id. -/
theorem claim_C10_delete_always_succeeds (id : ClientId) (reg : Registry)
    (db : List StoredClient) :
    (deleteClient id reg db).2.2.1 = 200 ∧
    (deleteClient id reg db).2.2.2 = true ∧
    isActive (deleteClient id reg db).1 id = false ∧
    (deleteClient id reg db).2.1 = db.filter (fun c => c.id ≠ id) :=
  ⟨rfl, rfl, by simp [deleteClient, isActive, lookupJob_stopJob_self], rfl⟩

/-! ## Claim C5, C6, C7 theorems -/

/-- C5: boot recovery isolates per-client failures.  With distinct
stored client ids: every client with a non-null schedule, the enabled
flag set and a valid expression ends up with its job active under its
stored expression (also when an earlier client failed); every such
client with an invalid stored expression is warned about and left
inactive without aborting the others; clients with a null schedule or a
cleared enabled flag are ignored (not started, not warned about).  The
model of `initSchedules` is a total function, so recovery always
completes without throwing. -/
theorem claim_C5_recovery_isolation (validate : String → Bool)
    (clients : List ClientRow) (hnd : (clients.map ClientRow.id).Nodup) :
    (∀ c ∈ clients, ∀ s, c.schedule = some s → c.schedule_enabled = true →
      validate s = true →
      lookupJob (initSchedules validate clients).1 c.id = some s) ∧
    (∀ c ∈ clients, ∀ s, c.schedule = some s → c.schedule_enabled = true →
      validate s = false →
      isActive (initSchedules validate clients).1 c.id = false ∧
      c.id ∈ (initSchedules validate clients).2.2) ∧
    (∀ c ∈ clients, c.schedule = none ∨ c.schedule_enabled = false →
      isActive (initSchedules validate clients).1 c.id = false ∧
      c.id ∉ (initSchedules validate clients).2.2) := by
  have hknd := enabledSchedules_keys_nodup clients hnd
  refine ⟨?_, ?_, ?_⟩
  · intro c hc s hs he hv
    have hmem := mem_enabledSchedules clients c hc s hs he
    exact runStartJobs_lookup_valid validate (enabledSchedules clients) c.id s
      [] [] hknd hmem hv
  · intro c hc s hs he hv
    have hmem := mem_enabledSchedules clients c hc s hs he
    have h2 := runStartJobs_invalid_skipped validate (enabledSchedules clients)
      c.id s [] [] hknd hmem hv (by simp)
    have h3 : lookupJob (initSchedules validate clients).1 c.id = none := h2.1
    exact ⟨by simp [isActive, h3], h2.2⟩
  · intro c hc hin
    have hnotkey : c.id ∉ (enabledSchedules clients).map Prod.fst :=
      enabledSchedules_key_not_mem_of_inert clients hnd c hc hin
    have h1 : lookupJob (initSchedules validate clients).1 c.id = none :=
      runStartJobs_lookup_not_mem validate (enabledSchedules clients) c.id
        [] [] hnotkey
    have h2 : c.id ∉ (initSchedules validate clients).2.2 :=
      runStartJobs_warned_not_mem validate (enabledSchedules clients) c.id
        [] [] (by simp) hnotkey
    exact ⟨by simp [isActive, h1], h2⟩

/-- The stored clients of the recovery example: one valid enabled
schedule, one invalid enabled schedule, one disabled null schedule. -/
def bootClients : List ClientRow :=
  [⟨1, some "*/5 * * * *", true⟩, ⟨2, some "not-a-cron", true⟩,
   ⟨3, none, false⟩]

/-- Witness for C5 at the concrete three-client example. -/
theorem claim_C5_recovery_isolation_witness :
    (bootClients.map ClientRow.id).Nodup ∧
    ((∀ c ∈ bootClients, ∀ s, c.schedule = some s → c.schedule_enabled = true →
       cronValid1 s = true →
       lookupJob (initSchedules cronValid1 bootClients).1 c.id = some s) ∧
     (∀ c ∈ bootClients, ∀ s, c.schedule = some s → c.schedule_enabled = true →
       cronValid1 s = false →
       isActive (initSchedules cronValid1 bootClients).1 c.id = false ∧
       c.id ∈ (initSchedules cronValid1 bootClients).2.2) ∧
     (∀ c ∈ bootClients, c.schedule = none ∨ c.schedule_enabled = false →
       isActive (initSchedules cronValid1 bootClients).1 c.id = false ∧
       c.id ∉ (initSchedules cronValid1 bootClients).2.2)) :=
  ⟨by decide, claim_C5_recovery_isolation cronValid1 bootClients (by decide)⟩

/-- C6 (code bug): `initSchedules` logs `result.rows.length` — the
number of fetched candidate rows — in its final
"Restored N scheduled job(s)" message.  At this input client 2 carries
an invalid stored expression: the logged count is 2 although only client
1's job was actually started (client 2 was warned about and is not
active), so the reported count is the candidate count, not the number of
successfully restored jobs. -/
theorem claim_C6_logged_count_is_candidate_count :
    (initSchedules cronValid1
      [⟨1, some "*/5 * * * *", true⟩, ⟨2, some "not-a-cron", true⟩]).2.1 = 2 ∧
    (initSchedules cronValid1
      [⟨1, some "*/5 * * * *", true⟩, ⟨2, some "not-a-cron", true⟩]).1.length = 1 ∧
    isActive (initSchedules cronValid1
      [⟨1, some "*/5 * * * *", true⟩, ⟨2, some "not-a-cron", true⟩]).1 1 = true ∧
    isActive (initSchedules cronValid1
      [⟨1, some "*/5 * * * *", true⟩, ⟨2, some "not-a-cron", true⟩]).1 2 = false :=
  ⟨by decide, by decide, by decide, by decide⟩

/-- Concrete URL validity stand-in (the JS `URL` constructor) for the
closed counterexample: accepts exactly one well-formed URL string. -/
def urlValid1 : String → Bool := fun s => s = "https://a.com"

/-- C7 counterexample: a create request whose url has invalid syntax is
answered 500 — the `new URL(url)` TypeError lands in the generic catch
whose non-23505 path answers 500 — not 400 as claimed. -/
theorem claim_C7_counterexample :
    (postClients urlValid1 [] 1 ⟨some "Acme", some "not a url", none⟩).1 = 500 ∧
    (postClients urlValid1 [] 1 ⟨some "Acme", some "not a url", none⟩).1 ≠ 400 :=
  ⟨by decide, by decide⟩

/-- C7 amended: POST /clients answers 400 exactly on a missing/empty
name or url or a platform outside mobile/desktop/both; a syntactically
invalid url is answered 500 (not 400); and 409 is answered exactly on a
duplicate name or a duplicate (url, platform) pair. -/
theorem claim_C7_post_clients_statuses (isValidUrl : String → Bool)
    (db : List StoredClient) (nextId : Nat) (req : ClientReq) :
    ((jsFalsy req.name || jsFalsy req.url) = true →
      (postClients isValidUrl db nextId req).1 = 400) ∧
    ((jsFalsy req.name || jsFalsy req.url) = false →
      ¬ (req.platform.getD "both" = "mobile" ∨
         req.platform.getD "both" = "desktop" ∨
         req.platform.getD "both" = "both") →
      (postClients isValidUrl db nextId req).1 = 400) ∧
    ((jsFalsy req.name || jsFalsy req.url) = false →
      (req.platform.getD "both" = "mobile" ∨
       req.platform.getD "both" = "desktop" ∨
       req.platform.getD "both" = "both") →
      isValidUrl (req.url.getD "") = false →
      (postClients isValidUrl db nextId req).1 = 500) ∧
    ((postClients isValidUrl db nextId req).1 = 409 →
      (db.any (fun c => c.name == req.name.getD "") = true ∨
       db.any (fun c => c.url == req.url.getD "" &&
         c.platform == req.platform.getD "both") = true)) ∧
    ((jsFalsy req.name || jsFalsy req.url) = false →
      (req.platform.getD "both" = "mobile" ∨
       req.platform.getD "both" = "desktop" ∨
       req.platform.getD "both" = "both") →
      isValidUrl (req.url.getD "") = true →
      (db.any (fun c => c.name == req.name.getD "") = true ∨
       db.any (fun c => c.url == req.url.getD "" &&
         c.platform == req.platform.getD "both") = true) →
      (postClients isValidUrl db nextId req).1 = 409) := by
  simp only [postClients]
  split_ifs with h1 h2 h3 h4 h5 <;>
    refine ⟨?_, ?_, ?_, ?_, ?_⟩ <;> intros <;> simp_all
  rcases ‹(∃ x ∈ db, x.name = req.name.getD "") ∨
      ∃ x ∈ db, x.url = req.url.getD "" ∧
        x.platform = req.platform.getD "both"› with
    ⟨x, hx, hxn⟩ | ⟨x, hx, hxu, hxp⟩
  · exact h4 x hx hxn
  · exact h5 x hx hxu hxp

/-- The stored table and request of the concrete C7 instance: the table
already holds the requested name. -/
def demoDb : List StoredClient := [⟨1, "Acme", "https://a.com", "both"⟩]

/-- The concrete create request of the C7 witness. -/
def demoReq : ClientReq := ⟨some "Acme", some "https://a.com", none⟩

/-- Witness for C7 at a concrete input (a duplicate-name request). -/
theorem claim_C7_post_clients_statuses_witness :
    ((jsFalsy demoReq.name || jsFalsy demoReq.url) = true →
      (postClients urlValid1 demoDb 2 demoReq).1 = 400) ∧
    ((jsFalsy demoReq.name || jsFalsy demoReq.url) = false →
      ¬ (demoReq.platform.getD "both" = "mobile" ∨
         demoReq.platform.getD "both" = "desktop" ∨
         demoReq.platform.getD "both" = "both") →
      (postClients urlValid1 demoDb 2 demoReq).1 = 400) ∧
    ((jsFalsy demoReq.name || jsFalsy demoReq.url) = false →
      (demoReq.platform.getD "both" = "mobile" ∨
       demoReq.platform.getD "both" = "desktop" ∨
       demoReq.platform.getD "both" = "both") →
      urlValid1 (demoReq.url.getD "") = false →
      (postClients urlValid1 demoDb 2 demoReq).1 = 500) ∧
    ((postClients urlValid1 demoDb 2 demoReq).1 = 409 →
      (demoDb.any (fun c => c.name == demoReq.name.getD "") = true ∨
       demoDb.any (fun c => c.url == demoReq.url.getD "" &&
         c.platform == demoReq.platform.getD "both") = true)) ∧
    ((jsFalsy demoReq.name || jsFalsy demoReq.url) = false →
      (demoReq.platform.getD "both" = "mobile" ∨
       demoReq.platform.getD "both" = "desktop" ∨
       demoReq.platform.getD "both" = "both") →
      urlValid1 (demoReq.url.getD "") = true →
      (demoDb.any (fun c => c.name == demoReq.name.getD "") = true ∨
       demoDb.any (fun c => c.url == demoReq.url.getD "" &&
         c.platform == demoReq.platform.getD "both") = true) →
      (postClients urlValid1 demoDb 2 demoReq).1 = 409) :=
  claim_C7_post_clients_statuses urlValid1 demoDb 2 demoReq

end LighthouseMonitoring
